import Mathlib

/-!
# Verification of the prepMaster correlation/analytics engine

Shallow embedding of `src/analysis/matcher.py` (the data-correlation and
scoring engine of the prepMaster repository) together with proofs of the
specification's claims about it.

Modelling conventions:
* Python floats are modelled by `ℚ` (exact arithmetic); the auxiliary pitch
  statistic, which involves a square root, lives in `ℝ`.
* External libraries (WordNet lemmatizer, nltk sentence tokenizer, the
  sentence-transformer cosine similarity, `math.exp`, librosa) are modelled
  as parameters collected in an `Oracle` structure: the engine's control
  flow and arithmetic are embedded exactly, while the opaque numeric
  functions it calls out to stay abstract.
* Python's `round(x, n)` (banker's rounding) is modelled exactly by
  `roundHE` below (round half to even).
* Transcript segments are normalized on ingestion: the Python code reads
  `seg.get("voice_start", seg.get("start", ...))`; the model's `Segment`
  carries the effective `voice_start` / `voice_end` values directly.
-/

/-- Banker's rounding (Python's `round` on exact values): round to the
nearest integer, ties to the even integer. -/
def roundHE {α : Type} [LinearOrderedField α] [FloorRing α] (x : α) : ℤ :=
  if x - (⌊x⌋ : α) < 1/2 then ⌊x⌋
  else if 1/2 < x - (⌊x⌋ : α) then ⌊x⌋ + 1
  else if ⌊x⌋ % 2 = 0 then ⌊x⌋ else ⌊x⌋ + 1

/-- Python `round(x, 1)` on exact rationals. -/
def roundTo1 (x : ℚ) : ℚ := ((roundHE (x * 10) : ℤ) : ℚ) / 10

/-- Python `round(x, 2)` on exact rationals. -/
def roundTo2 (x : ℚ) : ℚ := ((roundHE (x * 100) : ℤ) : ℚ) / 100

theorem roundHE_nonneg {α : Type} [LinearOrderedField α] [FloorRing α]
    {x : α} (hx : 0 ≤ x) : 0 ≤ roundHE x := by
  have hf : (0 : ℤ) ≤ ⌊x⌋ := Int.floor_nonneg.mpr hx
  unfold roundHE
  split_ifs <;> omega

theorem roundHE_le_int {α : Type} [LinearOrderedField α] [FloorRing α]
    {x : α} {n : ℤ} (hx : x ≤ (n : α)) : roundHE x ≤ n := by
  have hf : ⌊x⌋ ≤ n := by
    have := Int.floor_mono hx
    simpa using this
  unfold roundHE
  split_ifs with h1 h2 h3
  · exact hf
  · -- here 1/2 < x - ⌊x⌋, so ⌊x⌋ + 1/2 < x ≤ n, hence ⌊x⌋ < n
    have hlt : ((⌊x⌋ : α)) + 1/2 < (n : α) := by linarith
    have : ((⌊x⌋ : α)) < (n : α) := by linarith
    have : ⌊x⌋ < n := by exact_mod_cast this
    omega
  · exact hf
  · -- tie case: x - ⌊x⌋ = 1/2 exactly, so ⌊x⌋ + 1/2 ≤ n, hence ⌊x⌋ < n
    have heq : x - (⌊x⌋ : α) = 1/2 := le_antisymm (not_lt.mp h2) (not_lt.mp h1)
    have : ((⌊x⌋ : α)) + 1/2 ≤ (n : α) := by linarith
    have : ((⌊x⌋ : α)) < (n : α) := by linarith
    have : ⌊x⌋ < n := by exact_mod_cast this
    omega

theorem roundTo1_nonneg {x : ℚ} (hx : 0 ≤ x) : 0 ≤ roundTo1 x := by
  have : (0 : ℤ) ≤ roundHE (x * 10) := roundHE_nonneg (by linarith)
  unfold roundTo1
  positivity

theorem roundTo1_le_100 {x : ℚ} (hx : x ≤ 100) : roundTo1 x ≤ 100 := by
  have h : roundHE (x * 10) ≤ (1000 : ℤ) := by
    apply roundHE_le_int
    push_cast
    linarith
  unfold roundTo1
  have : ((roundHE (x * 10) : ℤ) : ℚ) ≤ 1000 := by exact_mod_cast h
  linarith

/-! ## Text utilities (`_clean_and_lemmatize` and friends)

Python's `str` operations are modelled on the underlying character list so
that every definition kernel-evaluates. -/

/-- Membership in Python's `string.punctuation`
(the ASCII ranges 33–47, 58–64, 91–96, 123–126). -/
def isPunct (c : Char) : Bool :=
  (33 ≤ c.toNat && c.toNat ≤ 47) || (58 ≤ c.toNat && c.toNat ≤ 64) ||
  (91 ≤ c.toNat && c.toNat ≤ 96) || (123 ≤ c.toNat && c.toNat ≤ 126)

/-- Python `str.lower()` (ASCII, which is all the engine compares). -/
def pyLower (s : String) : String := ⟨s.data.map Char.toLower⟩

/-- `text.translate(str.maketrans("", "", string.punctuation))`:
delete every punctuation character. -/
def stripPunct (s : String) : String := ⟨s.data.filter (fun c => !isPunct c)⟩

/-- Python `s.replace(" ", "")`. -/
def stripSpaces (s : String) : String := ⟨s.data.filter (fun c => c ≠ ' ')⟩

/-- Helper for `pyWords`: split a character list on whitespace,
dropping empty chunks (Python's no-argument `str.split()`). -/
def splitWsAux : List Char → List Char → List (List Char)
  | [], acc => if acc.isEmpty then [] else [acc.reverse]
  | c :: cs, acc =>
      if c.isWhitespace then
        if acc.isEmpty then splitWsAux cs []
        else acc.reverse :: splitWsAux cs []
      else splitWsAux cs (c :: acc)

/-- Python `str.split()` with no arguments. -/
def pyWords (s : String) : List String := (splitWsAux s.data []).map (fun l => ⟨l⟩)

/-- Bool-valued "starts with" on character lists. -/
def listStartsWith : List Char → List Char → Bool
  | [], _ => true
  | _ :: _, [] => false
  | a :: as, b :: bs => a = b && listStartsWith as bs

/-- Bool-valued substring test on character lists. -/
def listContainsSub (needle : List Char) : List Char → Bool
  | [] => listStartsWith needle []
  | b :: bs => listStartsWith needle (b :: bs) || listContainsSub needle bs

/-- Python's `needle in hay` on strings (substring containment). -/
def strContainsSub (needle hay : String) : Bool := listContainsSub needle.data hay.data

/-! ## Configuration (`load_config` defaults) -/

/-- Scoring weights and thresholds (`load_config` in `matcher.py`);
fields mirror the environment keys. -/
structure Config where
  semantic_threshold_strict : ℚ
  semantic_threshold_weak : ℚ
  weight_content : ℚ
  weight_fluency : ℚ
  weight_tone : ℚ
  ideal_wpm_low : ℚ
  ideal_wpm_high : ℚ
deriving DecidableEq

/-- The defaults hard-coded in `load_config`
(0.28 / 0.15 / 0.3 / 0.4 / 0.3 / 130 / 160). -/
def defaultConfig : Config :=
  { semantic_threshold_strict := 0.28
    semantic_threshold_weak := 0.15
    weight_content := 0.3
    weight_fluency := 0.4
    weight_tone := 0.3
    ideal_wpm_low := 130
    ideal_wpm_high := 160 }

/-! ## Data model -/

/-- A transcript segment (whisper output). The Python code coalesces the
field names `voice_start`/`start` and `voice_end`/`end`; the model carries
the effective values. `mumbled_words` / `filler_words` model the optional
keys (absent key = empty list, which the code treats identically). -/
structure Segment where
  voice_start : ℚ
  voice_end : ℚ
  text : String
  avg_logprob : ℚ
  no_speech_prob : ℚ
  mumbled_words : List String
  filler_words : List String
deriving DecidableEq

/-- A slide record with its expanded keyword map
(`concept → list of synonym strings`, in insertion order). -/
structure Slide where
  page_index : ℤ
  keywords_expanded : List (String × List String)
deriving DecidableEq

/-- One slide-transition timing entry. -/
structure TimingEntry where
  page_index : ℤ
  start_time : ℚ
  end_time : ℚ
deriving DecidableEq

/-- An analysis block of the output report: either the real payload or the
`{"error": msg}` marker the code writes for missing data. -/
inductive Block (α : Type) where
  | error : String → Block α
  | ok : α → Block α
deriving DecidableEq

/-- The `content_analysis` payload. -/
structure ContentAnalysis where
  score : ℚ
  covered_keywords : List String
  missed_keywords : List String
  filler_count : ℕ
  transcript_extract : String
  confidence_score : ℚ
  confidence_level : String
  status : String
deriving DecidableEq

/-- The `tone_analysis` payload. -/
structure ToneAnalysis where
  pitch_variability : ℚ
  status : String
deriving DecidableEq

/-- The `metrics` payload. -/
structure Metrics where
  wpm : ℚ
  mumble_rate : ℚ
  filler_rate_pm : ℚ
  status : String
deriving DecidableEq

/-- One enriched slide record of the final report. `overall_score` is
`none` for slides the engine never scored (missing timing entry). -/
structure SlideResult where
  page_index : ℤ
  start_time : Option ℚ
  end_time : Option ℚ
  overall_score : Option ℚ
  content_analysis : Block ContentAnalysis
  tone_analysis : Block ToneAnalysis
  metrics : Block Metrics
deriving DecidableEq

/-- External NLP/audio collaborators of the engine, kept abstract:
* `lemN` / `lemV`: WordNet noun / verb lemmatization;
* `sentTok`: `nltk.sent_tokenize`;
* `cosSim`: cosine similarity of the sentence-transformer embeddings of
  two strings (`util.cos_sim` of the encodings);
* `expFn`: `math.exp` (only the diagnostic confidence score uses it);
* `pitchFn`: the value of `_calculate_pitch_variability(audio, lo, hi)`
  for the recording being analysed. -/
structure Oracle where
  lemN : String → String
  lemV : String → String
  sentTok : String → List String
  cosSim : String → String → ℚ
  expFn : ℚ → ℚ
  pitchFn : ℚ → ℚ → ℚ

/-! ## Text normalizer (`_clean_and_lemmatize`) -/

/-- `_clean_and_lemmatize`: lowercase, strip punctuation, split on
whitespace, and for each word emit its noun lemma, verb lemma and the raw
word. (The Python code collects them into a `set`; the engine only ever
tests membership/intersection, for which this list is equivalent.) -/
def cleanAndLemmatize (o : Oracle) (text : String) : List String :=
  if text = "" then []
  else
    ((pyWords (stripPunct (pyLower text))).map
      (fun w => [o.lemN w, o.lemV w, w])).flatten

/-! ## Segment aligner -/

/-- Overlap of a segment with the slide window `[lo, hi]`:
`min(end_t, seg_end) - max(start_t, seg_start)`. -/
def segOverlap (lo hi : ℚ) (s : Segment) : ℚ :=
  min hi s.voice_end - max lo s.voice_start

/-- The segment-collection filter of section B of
`run_comprehensive_analysis`: keep a segment when its overlap exceeds
0.15 s, unless its no-speech probability exceeds 0.97. -/
def segmentSelected (lo hi : ℚ) (s : Segment) : Bool :=
  decide ((0.15 : ℚ) < segOverlap lo hi s) && !decide ((0.97 : ℚ) < s.no_speech_prob)

/-- `" ".join(t for t in page_texts if t)`. -/
def joinSpace : List String → String
  | [] => ""
  | [t] => t
  | t :: ts => t ++ " " ++ joinSpace ts

/-- Section C: `nltk.sent_tokenize(full_text) if full_text else []`,
falling back to `[full_text]` when the tokenizer returns nothing for a
non-empty text. The spoken text has at least one sentence embedding
(`user_embeddings is not None`) iff this list is non-empty. -/
def sentencesOf (o : Oracle) (full_text : String) : List String :=
  if full_text = "" then []
  else if (o.sentTok full_text).isEmpty then [full_text]
  else o.sentTok full_text

/-! ## Keyword matcher (section E) -/

/-- Tier 1 (lexical): the concept's normalized synonym-lemma set
intersects the normalized spoken-token set
(`not normalized[key].isdisjoint(spoken)`). -/
def level1Match (o : Oracle) (spoken : List String) (synonyms : List String) : Bool :=
  ((synonyms.map (cleanAndLemmatize o)).flatten).any (fun w => spoken.contains w)

/-- Tier 2 (substring): some synonym, space-stripped and lowercased, is a
literal substring of the space-stripped lowercased transcript. -/
def level2Match (clean_str : String) (synonyms : List String) : Bool :=
  synonyms.any (fun s => strContainsSub (pyLower (stripSpaces s)) clean_str)

/-- Tier 3 (semantic): `torch.max` of the cosine-similarity matrix between
the encoded candidates and the encoded spoken sentences. -/
def semanticBest (o : Oracle) (cands sentences : List String) : ℚ :=
  match (cands.map (fun c => sentences.map (fun t => o.cosSim c t))).flatten with
  | [] => 0
  | x :: xs => xs.foldl max x

/-- The per-concept matching decision, instrumented: returns the
covered/missed bit together with the number of times the semantic model
was invoked for this concept (0 or 1). Mirrors the loop body of section E:
tier 1, `elif` tier 2, and the semantic tier only when `is_match` is still
false and embeddings exist. -/
def matchConceptInstr (cfg : Config) (o : Oracle) (spoken : List String)
    (clean_str : String) (sentences : List String)
    (key : String) (synonyms : List String) : Bool × ℕ :=
  if level1Match o spoken synonyms then (true, 0)
  else if level2Match clean_str synonyms then (true, 0)
  else if sentences.isEmpty then (false, 0)
  else (decide (cfg.semantic_threshold_weak ≤ semanticBest o (key :: synonyms) sentences), 1)

/-- The covered/missed classification over the whole keyword map, in map
order (the `for original_key, synonyms in keywords_map.items()` loop). -/
def classifyKeywords (cfg : Config) (o : Oracle) (spoken : List String)
    (clean_str : String) (sentences : List String) :
    List (String × List String) → List String × List String
  | [] => ([], [])
  | (k, syns) :: rest =>
      let tail := classifyKeywords cfg o spoken clean_str sentences rest
      if (matchConceptInstr cfg o spoken clean_str sentences k syns).1
      then (k :: tail.1, tail.2)
      else (tail.1, k :: tail.2)

/-- `content_score = (len(covered) / total * 100) if total > 0 else 100.0`. -/
def contentScoreVal (numCovered total : ℕ) : ℚ :=
  if 0 < total then (numCovered : ℚ) / (total : ℚ) * 100 else 100

/-! ## Score calculator (`_calculate_overall_score`) -/

/-- The WPM sub-score: 100 inside the ideal band, else
`max(0, 100 - dist * 1.5)` where `dist` is the distance to the nearest
band edge. -/
def wpmSubScore (cfg : Config) (wpm : ℚ) : ℚ :=
  if cfg.ideal_wpm_low ≤ wpm ∧ wpm ≤ cfg.ideal_wpm_high then 100
  else max 0 (100 - min |wpm - cfg.ideal_wpm_low| |wpm - cfg.ideal_wpm_high| * 1.5)

/-- The fluency sub-score before weighting:
`max(0, wpm_score - mumble_rate*2.0 - (filler_count/duration*60)*5.0)`. -/
def fluencySub (cfg : Config) (wpm mumble_rate : ℚ) (filler_count : ℕ) (duration : ℚ) : ℚ :=
  max 0 (wpmSubScore cfg wpm - mumble_rate * 2 - (filler_count : ℚ) / duration * 60 * 5)

/-- The tone sub-score before weighting:
`min(100, pitch_var / 15.0 * 100)`. -/
def toneSub (pitch_var : ℚ) : ℚ := min 100 (pitch_var / 15 * 100)

/-- `_calculate_overall_score`: weighted 3:4:3 combination, forced to
`0.0` when there is no usable text or the duration is non-positive.
(The Python `content_score or 0.0` is the identity on floats: a falsy
float is exactly `0.0`.) -/
def calculate_overall_score (cfg : Config) (content_score wpm mumble_rate : ℚ)
    (filler_count : ℕ) (pitch_var duration : ℚ) (has_text : Bool) : ℚ :=
  if has_text = false ∨ duration ≤ 0 then 0
  else
    roundTo1 (content_score * cfg.weight_content
      + fluencySub cfg wpm mumble_rate filler_count duration * cfg.weight_fluency
      + toneSub pitch_var * cfg.weight_tone)

/-! ## Speech-presence state machine (cases 1–3 of section F) -/

/-- The wpm / mumble-rate / pitch / status tuple of section F. -/
structure SpeechStats where
  wpm : ℚ
  mumble_rate : ℚ
  pitch_var : ℚ
  content_status : String
deriving DecidableEq

/-- Cases 1–3 of section F: matched segments, speech-not-captured
(accumulated overlap above the 0.30 s presence threshold), or no speech
(which also zeroes the pitch statistic). In case 1 the span runs from the
first matched segment's start to the last one's end, floored at `1e-6`. -/
def speechStats (pitch_var0 : ℚ) (matched : List Segment)
    (total_words mumbledCount : ℕ) (overlap_speech : ℚ) : SpeechStats :=
  match matched with
  | m :: ms =>
      if 0 < total_words then
        { wpm := (total_words : ℚ) / max (1/1000000) ((ms.getLastD m).voice_end - m.voice_start) * 60
          mumble_rate := (mumbledCount : ℚ) / (total_words : ℚ) * 100
          pitch_var := pitch_var0
          content_status := "OK" }
      else
        { wpm := 0, mumble_rate := 0, pitch_var := pitch_var0, content_status := "OK" }
  | [] =>
      if (0.30 : ℚ) < overlap_speech then
        { wpm := 0, mumble_rate := 0, pitch_var := pitch_var0
          content_status := "Speech Not Captured" }
      else
        { wpm := 0, mumble_rate := 0, pitch_var := 0
          content_status := "No Speech Detected" }

/-! ## Per-slide analysis (sections B–F of `run_comprehensive_analysis`) -/

/-- The analysis of one slide that has a timing entry; `start_t`/`end_t`
is the already-clamped window. Sections B (segment collection),
C (sentences/embeddings), D (confidence), E (keyword matching) and
F (scores, metrics, report blocks) of the loop body. -/
def analyzeTimedSlide (cfg : Config) (o : Oracle) (segments : List Segment)
    (slide : Slide) (start_t end_t : ℚ) : SlideResult :=
  let matched := segments.filter (segmentSelected start_t end_t)
  let full_text := joinSpace ((matched.map Segment.text).filter (fun t => t ≠ ""))
  let total_words := ((matched.map (fun s => (pyWords s.text).length)).sum)
  let mumbled := (matched.map Segment.mumbled_words).flatten
  let fillers := (matched.map Segment.filler_words).flatten
  let page_logprobs := matched.map Segment.avg_logprob
  let sentences := sentencesOf o full_text
  let confidence_score :=
    if page_logprobs.isEmpty then 0
    else o.expFn (page_logprobs.sum / (page_logprobs.length : ℚ)) * 100
  let confidence_level := if 60 ≤ confidence_score then "High" else "Low"
  let spoken := cleanAndLemmatize o full_text
  let clean_str := pyLower (stripSpaces full_text)
  let cm := classifyKeywords cfg o spoken clean_str sentences slide.keywords_expanded
  let content_score := contentScoreVal cm.1.length slide.keywords_expanded.length
  let overlap_speech :=
    (segments.map (fun s =>
      if 0 < segOverlap start_t end_t s then segOverlap start_t end_t s else 0)).sum
  let stats := speechStats (o.pitchFn start_t end_t) matched total_words
    mumbled.length overlap_speech
  let has_text := !matched.isEmpty
  let duration := max (1/1000000) (end_t - start_t)
  let overall := calculate_overall_score cfg content_score stats.wpm stats.mumble_rate
    fillers.length stats.pitch_var duration has_text
  { page_index := slide.page_index
    start_time := some start_t
    end_time := some end_t
    overall_score := some overall
    content_analysis := Block.ok
      { score := if has_text then roundTo1 content_score else 0
        covered_keywords := if has_text then cm.1 else []
        missed_keywords := if has_text then cm.2 else []
        filler_count := fillers.length
        transcript_extract := if has_text then full_text else ""
        confidence_score := if has_text then roundTo1 confidence_score else 0
        confidence_level := if has_text then confidence_level else "None"
        status := stats.content_status }
    tone_analysis := Block.ok
      { pitch_variability := stats.pitch_var
        status :=
          if 12 < stats.pitch_var ∧ (0.30 : ℚ) < overlap_speech then "Dynamic"
          else if (0.30 : ℚ) < overlap_speech then "Monotone"
          else "Unknown" }
    metrics := Block.ok
      { wpm := roundTo1 stats.wpm
        mumble_rate := roundTo1 stats.mumble_rate
        filler_rate_pm := roundTo1 ((fillers.length : ℚ) / duration * 60)
        status :=
          if 85 ≤ overall then "Excellent"
          else if has_text ∧ stats.mumble_rate ≤ 20 then "Pass"
          else if has_text then "Unclear Speech"
          else stats.content_status } }

/-- `if end_t < start_t: end_t = start_t` (section A's clamp). -/
def clampEnd (start_t end_t : ℚ) : ℚ := if end_t < start_t then start_t else end_t

/-- The record written for a slide with no timing entry (section A's
`else` branch): explicit error markers, no score. -/
def noTimingResult (slide : Slide) : SlideResult :=
  { page_index := slide.page_index
    start_time := none
    end_time := none
    overall_score := none
    content_analysis := Block.error "No timing data"
    tone_analysis := Block.error "No timing data"
    metrics := Block.error "No timing data" }

/-- One iteration of the per-slide loop: timing entries pair with slides
by list position (`if i < len(timings)`). -/
def processSlide (cfg : Config) (o : Oracle) (segments : List Segment)
    (timings : List TimingEntry) (i : ℕ) (slide : Slide) : SlideResult :=
  match timings[i]? with
  | some t =>
      analyzeTimedSlide cfg o segments slide t.start_time (clampEnd t.start_time t.end_time)
  | none => noTimingResult slide

/-- Index-aware map used to embed `for i, slide in enumerate(slides)`. -/
def mapIdxFrom {α β : Type} (f : ℕ → α → β) : ℕ → List α → List β
  | _, [] => []
  | k, a :: as => f k a :: mapIdxFrom f (k + 1) as

/-- `run_comprehensive_analysis`, after the fail-fast existence checks and
file loading: the per-slide loop over the decoded inputs, producing one
enriched record per slide. -/
def run_comprehensive_analysis (cfg : Config) (o : Oracle) (slides : List Slide)
    (segments : List Segment) (timings : List TimingEntry) : List SlideResult :=
  mapIdxFrom (processSlide cfg o segments timings) 0 slides

theorem mapIdxFrom_length {α β : Type} (f : ℕ → α → β) (k : ℕ) (l : List α) :
    (mapIdxFrom f k l).length = l.length := by
  induction l generalizing k with
  | nil => rfl
  | cons a as ih => simp [mapIdxFrom, ih]

theorem mapIdxFrom_getElem? {α β : Type} (f : ℕ → α → β) (k i : ℕ) (l : List α) :
    (mapIdxFrom f k l)[i]? = (l[i]?).map (f (k + i)) := by
  induction l generalizing k i with
  | nil => simp [mapIdxFrom]
  | cons a as ih =>
      cases i with
      | zero => simp [mapIdxFrom]
      | succ n =>
          have h : k + (n + 1) = (k + 1) + n := by omega
          simp [mapIdxFrom, ih (k + 1) n, h]

/-! ## Pitch analyzer (`_calculate_pitch_variability`)

The librosa calls (`librosa.load` + `librosa.pyin`) are external; they are
modelled by a function from the window to a `PyinResult`. The statistic
itself (`np.std`, a population standard deviation) is embedded exactly
over `ℝ`. -/

/-- Outcome of the librosa load + pyin call for a window:
an exception (decode error etc.), a `None` pitch array, or an array of
per-frame pitch estimates where `none` models a NaN (unvoiced) frame. -/
inductive PyinResult where
  | err : PyinResult
  | noneArr : PyinResult
  | arr : List (Option ℚ) → PyinResult

/-- `np.std` (population standard deviation) of a list of rationals. -/
noncomputable def npStd (l : List ℚ) : ℝ :=
  Real.sqrt ((((l.map (fun x => (x - l.sum / (l.length : ℚ)) ^ 2)).sum
      / (l.length : ℚ) : ℚ) : ℝ))

/-- `_calculate_pitch_variability`: `0.0` for a malformed window, on an
exception (caught and logged), on a `None` pitch array, or with fewer
than 2 valid (non-NaN) estimates; otherwise the standard deviation of the
valid estimates rounded to 2 decimals. -/
noncomputable def calculate_pitch_variability (pyin : ℚ → ℚ → PyinResult)
    (start_t end_t : ℚ) : ℝ :=
  if end_t ≤ start_t then 0
  else
    match pyin start_t end_t with
    | PyinResult.err => 0
    | PyinResult.noneArr => 0
    | PyinResult.arr ps =>
        if 1 < (ps.filterMap id).length
        then ((roundHE (npStd (ps.filterMap id) * 100) : ℤ) : ℝ) / 100
        else 0

/-! ## Concrete scenario inputs -/

/-- A fully concrete oracle: identity lemmatizer, whole-text sentence
tokenizer, zero cosine similarity, identity `exp`, constant pitch `pv`.
Used to evaluate the engine on closed inputs. -/
def trivOracle (pv : ℚ) : Oracle :=
  { lemN := fun w => w
    lemV := fun w => w
    sentTok := fun t => [t]
    cosSim := fun _ _ => 0
    expFn := fun x => x
    pitchFn := fun _ _ => pv }

/-- The spec's end-to-end scenario slide: one concept with two synonyms. -/
def photoSlide : Slide :=
  { page_index := 0
    keywords_expanded := [("photosynthesis", ["photosynthesis", "making energy from light"])] }

/-- The scenario's single transcript segment, spanning `[1, 9)`. -/
def photoSeg : Segment :=
  { voice_start := 1
    voice_end := 9
    text := "Today we explain how plants make energy from light"
    avg_logprob := -0.2
    no_speech_prob := 0
    mumbled_words := []
    filler_words := [] }

/-- The scenario's timing window `[0, 10)`. -/
def photoTiming : TimingEntry := { page_index := 0, start_time := 0, end_time := 10 }

/-- The engine's output on the end-to-end scenario, with pitch
variability 14.0. -/
def photoRun : List SlideResult :=
  run_comprehensive_analysis defaultConfig (trivOracle 14) [photoSlide] [photoSeg] [photoTiming]


/-- Project the payload out of an analysis block. -/
def blockVal {α : Type} : Block α → Option α
  | Block.error _ => none
  | Block.ok a => some a

/-! ## Bounds of the score calculator's components -/

theorem wpmSubScore_nonneg (cfg : Config) (w : ℚ) : 0 ≤ wpmSubScore cfg w := by
  unfold wpmSubScore
  split_ifs
  · norm_num
  · exact le_max_left 0 _

theorem wpmSubScore_le_100 (cfg : Config) (w : ℚ) : wpmSubScore cfg w ≤ 100 := by
  unfold wpmSubScore
  split_ifs
  · norm_num
  · refine max_le (by norm_num) ?_
    have h1 : 0 ≤ min |w - cfg.ideal_wpm_low| |w - cfg.ideal_wpm_high| :=
      le_min (abs_nonneg _) (abs_nonneg _)
    nlinarith

theorem fluencySub_nonneg (cfg : Config) (w m : ℚ) (fc : ℕ) (d : ℚ) :
    0 ≤ fluencySub cfg w m fc d := le_max_left 0 _

theorem fluencySub_le_100 (cfg : Config) (w m : ℚ) (fc : ℕ) (d : ℚ)
    (hm : 0 ≤ m) (hd : 0 < d) : fluencySub cfg w m fc d ≤ 100 := by
  unfold fluencySub
  refine max_le (by norm_num) ?_
  have h1 := wpmSubScore_le_100 cfg w
  have h2 : 0 ≤ (fc : ℚ) / d * 60 * 5 := by positivity
  linarith

theorem toneSub_le_100 (p : ℚ) : toneSub p ≤ 100 := min_le_left _ _

theorem toneSub_nonneg {p : ℚ} (hp : 0 ≤ p) : 0 ≤ toneSub p := by
  unfold toneSub
  refine le_min (by norm_num) (by positivity)

theorem contentScoreVal_nonneg (nc t : ℕ) : 0 ≤ contentScoreVal nc t := by
  unfold contentScoreVal
  split_ifs
  · positivity
  · norm_num

theorem contentScoreVal_le_100 {nc t : ℕ} (h : nc ≤ t) : contentScoreVal nc t ≤ 100 := by
  unfold contentScoreVal
  split_ifs with ht
  · have htq : (0 : ℚ) < (t : ℚ) := by exact_mod_cast ht
    have : (nc : ℚ) / (t : ℚ) ≤ 1 := by
      rw [div_le_one htq]
      exact_mod_cast h
    nlinarith
  · norm_num

/-- Bounds of `_calculate_overall_score` under the default configuration,
given the argument facts the pipeline guarantees. -/
theorem calculate_overall_bounds (c w m : ℚ) (fc : ℕ) (p d : ℚ) (b : Bool)
    (hc0 : 0 ≤ c) (hc1 : c ≤ 100) (hm : 0 ≤ m) (hp : 0 ≤ p) (hd : 0 < d) :
    0 ≤ calculate_overall_score defaultConfig c w m fc p d b ∧
      calculate_overall_score defaultConfig c w m fc p d b ≤ 100 := by
  unfold calculate_overall_score
  split_ifs
  · norm_num
  · have hf0 := fluencySub_nonneg defaultConfig w m fc d
    have hf1 := fluencySub_le_100 defaultConfig w m fc d hm hd
    have ht0 := toneSub_nonneg hp
    have ht1 := toneSub_le_100 p
    have hw : defaultConfig.weight_content = 0.3 ∧ defaultConfig.weight_fluency = 0.4 ∧
        defaultConfig.weight_tone = 0.3 := ⟨rfl, rfl, rfl⟩
    obtain ⟨e1, e2, e3⟩ := hw
    rw [e1, e2, e3]
    constructor
    · apply roundTo1_nonneg
      nlinarith
    · apply roundTo1_le_100
      nlinarith

theorem speechStats_mr_nonneg (pv0 : ℚ) (matched : List Segment)
    (tw mc : ℕ) (os : ℚ) : 0 ≤ (speechStats pv0 matched tw mc os).mumble_rate := by
  unfold speechStats
  rcases matched with _ | ⟨m, ms⟩ <;> split_ifs <;> positivity

theorem speechStats_pv_nonneg {pv0 : ℚ} (h : 0 ≤ pv0) (matched : List Segment)
    (tw mc : ℕ) (os : ℚ) : 0 ≤ (speechStats pv0 matched tw mc os).pitch_var := by
  unfold speechStats
  rcases matched with _ | ⟨m, ms⟩ <;> split_ifs <;> first | exact h | norm_num

/-- When `_calculate_overall_score` receives `has_text = False`
it returns `0.0` regardless of every other argument. -/
theorem calculate_overall_score_no_text (cfg : Config) (c w m : ℚ) (fc : ℕ) (p d : ℚ) :
    calculate_overall_score cfg c w m fc p d false = 0 := by
  simp [calculate_overall_score]

/-! ## Facts about the keyword classification -/

theorem classifyKeywords_perm (cfg : Config) (o : Oracle) (spoken : List String)
    (clean_str : String) (sentences : List String) (kw : List (String × List String)) :
    ((classifyKeywords cfg o spoken clean_str sentences kw).1
      ++ (classifyKeywords cfg o spoken clean_str sentences kw).2).Perm
      (kw.map Prod.fst) := by
  induction kw with
  | nil => simp [classifyKeywords]
  | cons p rest ih =>
      obtain ⟨k, syns⟩ := p
      unfold classifyKeywords
      split_ifs
      · simpa using ih.cons k
      · simp only [List.map_cons]
        exact (List.perm_middle).trans (ih.cons k)

theorem classifyKeywords_length (cfg : Config) (o : Oracle) (spoken : List String)
    (clean_str : String) (sentences : List String) (kw : List (String × List String)) :
    (classifyKeywords cfg o spoken clean_str sentences kw).1.length
      + (classifyKeywords cfg o spoken clean_str sentences kw).2.length = kw.length := by
  have h := (classifyKeywords_perm cfg o spoken clean_str sentences kw).length_eq
  simpa using h

theorem classifyKeywords_covered_le (cfg : Config) (o : Oracle) (spoken : List String)
    (clean_str : String) (sentences : List String) (kw : List (String × List String)) :
    (classifyKeywords cfg o spoken clean_str sentences kw).1.length ≤ kw.length := by
  have h := classifyKeywords_length cfg o spoken clean_str sentences kw
  omega

/-! ## Facts about the per-slide analysis -/

/-- A slide analysed through the timed path always carries a real (`ok`)
content block, never an error marker. -/
theorem analyzeTimedSlide_content_ok (cfg : Config) (o : Oracle) (segments : List Segment)
    (slide : Slide) (s e : ℚ) :
    ∃ c, (analyzeTimedSlide cfg o segments slide s e).content_analysis = Block.ok c :=
  ⟨_, rfl⟩

/-- The overall score of a slide analysed through the timed path, under
the default configuration, is bounded in `[0, 100]` provided the external
pitch statistic is non-negative. -/
theorem analyzeTimedSlide_overall_bounds (o : Oracle) (hp : ∀ a b, 0 ≤ o.pitchFn a b)
    (segments : List Segment) (slide : Slide) (s e : ℚ) (v : ℚ)
    (hv : (analyzeTimedSlide defaultConfig o segments slide s e).overall_score = some v) :
    0 ≤ v ∧ v ≤ 100 := by
  simp only [analyzeTimedSlide, Option.some.injEq] at hv
  subst hv
  apply calculate_overall_bounds
  · exact contentScoreVal_nonneg _ _
  · exact contentScoreVal_le_100 (classifyKeywords_covered_le _ _ _ _ _ _)
  · exact speechStats_mr_nonneg _ _ _ _ _
  · exact speechStats_pv_nonneg (hp _ _) _ _ _ _
  · exact lt_of_lt_of_le (by norm_num) (le_max_left _ _)

/-- A slide whose window matches no transcript segments gets overall
score exactly `0.0` (the `has_text` gate of `_calculate_overall_score`). -/
theorem analyzeTimedSlide_no_match (cfg : Config) (o : Oracle) (segments : List Segment)
    (slide : Slide) (s e : ℚ)
    (h : segments.filter (segmentSelected s e) = []) :
    (analyzeTimedSlide cfg o segments slide s e).overall_score = some 0 := by
  simp only [analyzeTimedSlide, h, List.isEmpty_nil, Bool.not_true,
    calculate_overall_score_no_text]

/-- A degenerate raw window (`end_time ≤ start_time`) clamps to a point
window, which overlaps no segment by more than the 0.15 s threshold. -/
theorem filter_clamp_degenerate (segments : List Segment) (s e : ℚ) (he : e ≤ s) :
    segments.filter (segmentSelected s (clampEnd s e)) = [] := by
  have hle : clampEnd s e ≤ s := by
    unfold clampEnd
    split_ifs
    · exact le_refl s
    · exact he
  apply List.filter_eq_nil_iff.mpr
  intro seg _
  unfold segmentSelected
  have hov : segOverlap s (clampEnd s e) seg ≤ 0 := by
    unfold segOverlap
    have h1 : min (clampEnd s e) seg.voice_end ≤ s := le_trans (min_le_left _ _) hle
    have h2 : s ≤ max s seg.voice_start := le_max_left _ _
    linarith
  simp only [Bool.and_eq_true, decide_eq_true_eq, not_and]
  intro hlt
  exfalso
  have : (0.15 : ℚ) ≤ 0 := le_trans (le_of_lt hlt) hov
  norm_num at this

/-- The report record at index `i` is the per-slide processing of the
slide at index `i`. -/
theorem run_getElem? (cfg : Config) (o : Oracle) (slides : List Slide)
    (segments : List Segment) (timings : List TimingEntry) (i : ℕ) :
    (run_comprehensive_analysis cfg o slides segments timings)[i]? =
      (slides[i]?).map (processSlide cfg o segments timings i) := by
  unfold run_comprehensive_analysis
  simpa using mapIdxFrom_getElem? (processSlide cfg o segments timings) 0 i slides

/-! ## Claim theorems -/

/-- C1: For every slide that is scored (has a timing entry), the overall
score and every sub-score (content, fluency, tone and the WPM component)
lie in [0, 100] under the default configuration: each term is clamped
non-negative or capped at 100 before weighting and the weights
0.3/0.4/0.3 sum to 1.0, so the rounded weighted sum is bounded to
[0, 100]. The only external fact needed is that the pitch statistic is
non-negative (proved separately of the pitch analyzer, claim C9). -/
theorem claim_C1_scores_bounded (o : Oracle) (hp : ∀ a b, 0 ≤ o.pitchFn a b)
    (slides : List Slide) (segments : List Segment) (timings : List TimingEntry) :
    (∀ (i : ℕ) (v : ℚ),
        ((run_comprehensive_analysis defaultConfig o slides segments timings)[i]?.bind
          SlideResult.overall_score) = some v → 0 ≤ v ∧ v ≤ 100)
    ∧ (∀ w, 0 ≤ wpmSubScore defaultConfig w ∧ wpmSubScore defaultConfig w ≤ 100)
    ∧ (∀ w m d, ∀ fc : ℕ, 0 ≤ m → 0 < d →
        0 ≤ fluencySub defaultConfig w m fc d ∧ fluencySub defaultConfig w m fc d ≤ 100)
    ∧ (∀ p, 0 ≤ p → 0 ≤ toneSub p ∧ toneSub p ≤ 100)
    ∧ (∀ nc t : ℕ, nc ≤ t → 0 ≤ contentScoreVal nc t ∧ contentScoreVal nc t ≤ 100)
    ∧ defaultConfig.weight_content + defaultConfig.weight_fluency
        + defaultConfig.weight_tone = 1 := by
  refine ⟨?_, ?_, ?_, ?_, ?_, by norm_num [defaultConfig]⟩
  · intro i v hv
    rw [run_getElem? defaultConfig o slides segments timings i] at hv
    rcases hs : slides[i]? with _ | slide
    · rw [hs] at hv
      simp at hv
    · rw [hs] at hv
      simp only [Option.map_some', Option.some_bind] at hv
      unfold processSlide at hv
      rcases ht : timings[i]? with _ | t
      · rw [ht] at hv
        have h2 : (noTimingResult slide).overall_score = some v := hv
        simp [noTimingResult] at h2
      · rw [ht] at hv
        exact analyzeTimedSlide_overall_bounds o hp segments slide _ _ v hv
  · intro w
    exact ⟨wpmSubScore_nonneg _ _, wpmSubScore_le_100 _ _⟩
  · intro w m d fc hm hd
    exact ⟨fluencySub_nonneg _ _ _ _ _, fluencySub_le_100 _ _ _ _ _ hm hd⟩
  · intro p hp0
    exact ⟨toneSub_nonneg hp0, toneSub_le_100 p⟩
  · intro nc t h
    exact ⟨contentScoreVal_nonneg _ _, contentScoreVal_le_100 h⟩

theorem claim_C1_scores_bounded_witness :
    0 ≤ (121/2 : ℚ) ∧ (121/2 : ℚ) ≤ 100 :=
  (claim_C1_scores_bounded (trivOracle 14)
      (fun _ _ => by norm_num [trivOracle]) [photoSlide] [photoSeg] [photoTiming]).1
    0 (121/2) (by with_unfolding_all decide)

/-- A segment carrying no text at all, but overlapping the window: it
passes the selection filter, so `has_text` is set even though the matched
transcript text is empty. -/
def emptyTextSeg : Segment :=
  { voice_start := 1
    voice_end := 9
    text := ""
    avg_logprob := -0.2
    no_speech_prob := 0
    mumbled_words := []
    filler_words := [] }

/-- A slide with no expected keywords. -/
def emptySlide : Slide := { page_index := 0, keywords_expanded := [] }

/-- The engine's output for `emptySlide` over `emptyTextSeg` with pitch
variability 14.0 in window [0, 10). -/
def emptyTextRun : List SlideResult :=
  run_comprehensive_analysis defaultConfig (trivOracle 14) [emptySlide] [emptyTextSeg] [photoTiming]

/-- C2 counterexample: a slide with zero matched text (its only matched
segment has an empty transcript string, so no usable transcript text
exists in the window) still earns credit from the content and tone terms:
its overall score is 58.0, not 0.0. -/
theorem claim_C2_counterexample :
    [emptyTextSeg].filter (segmentSelected 0 10) = [emptyTextSeg]
    ∧ joinSpace ((([emptyTextSeg].filter (segmentSelected 0 10)).map Segment.text).filter
        (fun t => t ≠ "")) = ""
    ∧ (emptyTextRun[0]?.bind SlideResult.overall_score) = some 58
    ∧ (58 : ℚ) ≠ 0 := by
  refine ⟨by with_unfolding_all decide, by with_unfolding_all decide,
    by with_unfolding_all decide, by norm_num⟩

/-- C2 (amended): for every slide whose window matches no transcript
segments, or whose raw time window has non-positive duration (which
clamps to a point window matching nothing), the overall score is exactly
0.0. (A matched segment whose `text` is empty still counts as usable
text — `has_text` tests matched segments, not their text — so "zero
matched text" must be read as "zero matched segments".) -/
theorem claim_C2_zero_score_when_unmatched (cfg : Config) (o : Oracle)
    (segments : List Segment) (timings : List TimingEntry) (i : ℕ)
    (slide : Slide) (t : TimingEntry) (ht : timings[i]? = some t)
    (h : segments.filter
          (segmentSelected t.start_time (clampEnd t.start_time t.end_time)) = []
        ∨ t.end_time ≤ t.start_time) :
    (processSlide cfg o segments timings i slide).overall_score = some 0 := by
  have hm : segments.filter
      (segmentSelected t.start_time (clampEnd t.start_time t.end_time)) = [] := by
    rcases h with h | h
    · exact h
    · exact filter_clamp_degenerate segments t.start_time t.end_time h
  unfold processSlide
  rw [ht]
  exact analyzeTimedSlide_no_match cfg o segments slide _ _ hm

/-- A timing window far from the only segment. -/
def farTiming : TimingEntry := { page_index := 0, start_time := 20, end_time := 30 }

theorem claim_C2_zero_score_when_unmatched_witness :
    (processSlide defaultConfig (trivOracle 14) [photoSeg] [farTiming] 0
      photoSlide).overall_score = some 0 :=
  claim_C2_zero_score_when_unmatched defaultConfig (trivOracle 14) [photoSeg] [farTiming] 0
    photoSlide farTiming rfl (Or.inl (by with_unfolding_all decide))

/-- C3: a slide with an empty expected-keyword map gets content score
exactly 100.0; for a non-empty map the content score is
`covered/total * 100`, where `covered` and `missed` partition all concept
keys (their concatenation is a permutation of the key list, so every key
lands in exactly one of the two and the lengths add up). -/
theorem claim_C3_content_score (cfg : Config) (o : Oracle) (spoken : List String)
    (clean_str : String) (sentences : List String) (kw : List (String × List String)) :
    (kw = [] →
      contentScoreVal (classifyKeywords cfg o spoken clean_str sentences kw).1.length
        kw.length = 100)
    ∧ (kw ≠ [] →
      contentScoreVal (classifyKeywords cfg o spoken clean_str sentences kw).1.length
          kw.length
        = ((classifyKeywords cfg o spoken clean_str sentences kw).1.length : ℚ)
            / (kw.length : ℚ) * 100)
    ∧ ((classifyKeywords cfg o spoken clean_str sentences kw).1
        ++ (classifyKeywords cfg o spoken clean_str sentences kw).2).Perm
        (kw.map Prod.fst)
    ∧ (∀ k, k ∈ kw.map Prod.fst ↔
        k ∈ (classifyKeywords cfg o spoken clean_str sentences kw).1
        ∨ k ∈ (classifyKeywords cfg o spoken clean_str sentences kw).2)
    ∧ (classifyKeywords cfg o spoken clean_str sentences kw).1.length
        + (classifyKeywords cfg o spoken clean_str sentences kw).2.length
        = kw.length := by
  refine ⟨?_, ?_, classifyKeywords_perm cfg o spoken clean_str sentences kw, ?_, 
    classifyKeywords_length cfg o spoken clean_str sentences kw⟩
  · intro hkw
    subst hkw
    simp [classifyKeywords, contentScoreVal]
  · intro hkw
    unfold contentScoreVal
    rw [if_pos]
    exact List.length_pos.mpr hkw
  · intro k
    have h := (classifyKeywords_perm cfg o spoken clean_str sentences kw).mem_iff (a := k)
    rw [List.mem_append] at h
    exact h.symm

theorem claim_C3_content_score_witness :
    contentScoreVal
      (classifyKeywords defaultConfig (trivOracle 0) [] "" [] []).1.length
      (List.length ([] : List (String × List String))) = 100 :=
  (claim_C3_content_score defaultConfig (trivOracle 0) [] "" [] []).1 rfl

/-- C4: a transcript segment is selected for a slide window iff its
overlap with the window strictly exceeds 0.15 s and its no-speech
probability does not exceed 0.97; an overlap of exactly 0.15 s is
excluded, an overlap of 0.1501 s is included. -/
theorem claim_C4_segment_selection :
    (∀ (lo hi : ℚ) (s : Segment),
      segmentSelected lo hi s = true ↔
        ((0.15 : ℚ) < segOverlap lo hi s ∧ s.no_speech_prob ≤ 0.97))
    ∧ segmentSelected 0 10
        { voice_start := 9.85, voice_end := 20, text := "", avg_logprob := 0,
          no_speech_prob := 0, mumbled_words := [], filler_words := [] } = false
    ∧ segmentSelected 0 10
        { voice_start := 9.8499, voice_end := 20, text := "", avg_logprob := 0,
          no_speech_prob := 0, mumbled_words := [], filler_words := [] } = true := by
  refine ⟨?_, by with_unfolding_all decide, by with_unfolding_all decide⟩
  intro lo hi s
  unfold segmentSelected
  simp [not_lt]

/-- C5: under the default band 130–160, the WPM sub-score is exactly 100
inside the band and `max(0, 100 - 1.5 * d)` outside it, `d` being the
distance to the nearest band edge; in particular 130 and 160 yield 100
and 100 wpm yields 55. -/
theorem claim_C5_wpm_band :
    (∀ w : ℚ, 130 ≤ w → w ≤ 160 → wpmSubScore defaultConfig w = 100)
    ∧ (∀ w : ℚ, ¬(130 ≤ w ∧ w ≤ 160) →
        wpmSubScore defaultConfig w = max 0 (100 - 1.5 * min |w - 130| |w - 160|))
    ∧ wpmSubScore defaultConfig 130 = 100
    ∧ wpmSubScore defaultConfig 160 = 100
    ∧ wpmSubScore defaultConfig 100 = 55 := by
  have hlow : defaultConfig.ideal_wpm_low = 130 := rfl
  have hhigh : defaultConfig.ideal_wpm_high = 160 := rfl
  refine ⟨?_, ?_, ?_, ?_, ?_⟩
  · intro w h1 h2
    unfold wpmSubScore
    rw [hlow, hhigh, if_pos ⟨h1, h2⟩]
  · intro w h
    unfold wpmSubScore
    rw [hlow, hhigh, if_neg h]
    ring_nf
  · unfold wpmSubScore
    rw [hlow, hhigh, if_pos (by norm_num)]
  · unfold wpmSubScore
    rw [hlow, hhigh, if_pos (by norm_num)]
  · unfold wpmSubScore
    rw [hlow, hhigh, if_neg (by norm_num)]
    rw [show |(100 : ℚ) - 130| = 30 by rw [abs_of_nonpos] <;> norm_num,
        show |(100 : ℚ) - 160| = 60 by rw [abs_of_nonpos] <;> norm_num]
    norm_num

theorem claim_C5_wpm_band_witness : wpmSubScore defaultConfig 140 = 100 :=
  claim_C5_wpm_band.1 140 (by norm_num) (by norm_num)

/-- C6: the three matching tiers short-circuit in order. A concept whose
synonym-lemma set intersects the spoken-token set (tier 1) is classified
covered with zero invocations of the semantic model, and the semantic
tier is invoked exactly when both the lexical and substring tiers fail
and at least one spoken-sentence embedding exists. -/
theorem claim_C6_tier_precedence (cfg : Config) (o : Oracle) (spoken : List String)
    (clean_str : String) (sentences : List String) (key : String)
    (synonyms : List String) :
    (level1Match o spoken synonyms = true →
      matchConceptInstr cfg o spoken clean_str sentences key synonyms = (true, 0))
    ∧ ((matchConceptInstr cfg o spoken clean_str sentences key synonyms).2 ≠ 0 ↔
        (level1Match o spoken synonyms = false ∧ level2Match clean_str synonyms = false
          ∧ sentences ≠ []))
    ∧ (level1Match o spoken synonyms = true ↔
        ∃ w ∈ (synonyms.map (cleanAndLemmatize o)).flatten, w ∈ spoken) := by
  refine ⟨?_, ?_, ?_⟩
  · intro h1
    unfold matchConceptInstr
    rw [if_pos h1]
  · unfold matchConceptInstr
    split_ifs with h1 h2 h3
    · simp [h1]
    · simp [h2]
    · simp [List.isEmpty_iff.mp h3]
    · constructor
      · intro _
        refine ⟨by simpa using h1, by simpa using h2, ?_⟩
        intro hs
        exact h3 (by simp [hs])
      · intro _
        norm_num
  · unfold level1Match
    simp only [List.any_eq_true, List.mem_flatten, List.mem_map]
    constructor
    · rintro ⟨w, ⟨l, ⟨a, ha, hl⟩, hw⟩, hsp⟩
      exact ⟨w, ⟨l, ⟨a, ha, hl⟩, hw⟩, by simpa using hsp⟩
    · rintro ⟨w, ⟨l, ⟨a, ha, hl⟩, hw⟩, hsp⟩
      exact ⟨w, ⟨l, ⟨a, ha, hl⟩, hw⟩, by simpa using hsp⟩

theorem claim_C6_tier_precedence_witness :
    matchConceptInstr defaultConfig (trivOracle 0)
      (cleanAndLemmatize (trivOracle 0) "energy") "" [] "photosynthesis" ["energy"]
      = (true, 0) :=
  (claim_C6_tier_precedence defaultConfig (trivOracle 0)
      (cleanAndLemmatize (trivOracle 0) "energy") "" [] "photosynthesis" ["energy"]).1
    (by decide)

/-- C7: a slide with no timing entry gets all three analysis blocks
replaced by the explicit "No timing data" error marker (and no overall
score), the run does not abort (the report has one record per slide), and
every slide that does have a timing entry is processed normally. -/
theorem claim_C7_missing_timing (cfg : Config) (o : Oracle) (slides : List Slide)
    (segments : List Segment) (timings : List TimingEntry) :
    (run_comprehensive_analysis cfg o slides segments timings).length = slides.length
    ∧ (∀ (i : ℕ) (slide : Slide), timings.length ≤ i → slides[i]? = some slide →
        (run_comprehensive_analysis cfg o slides segments timings)[i]?
          = some (noTimingResult slide))
    ∧ (∀ slide : Slide,
        (noTimingResult slide).content_analysis = Block.error "No timing data"
        ∧ (noTimingResult slide).tone_analysis = Block.error "No timing data"
        ∧ (noTimingResult slide).metrics = Block.error "No timing data"
        ∧ (noTimingResult slide).overall_score = none)
    ∧ (∀ (j : ℕ) (t : TimingEntry) (slide : Slide),
        timings[j]? = some t → slides[j]? = some slide →
        (run_comprehensive_analysis cfg o slides segments timings)[j]?
          = some (analyzeTimedSlide cfg o segments slide t.start_time
              (clampEnd t.start_time t.end_time))) := by
  refine ⟨mapIdxFrom_length _ 0 slides, ?_, fun slide => ⟨rfl, rfl, rfl, rfl⟩, ?_⟩
  · intro i slide hlen hs
    rw [run_getElem? cfg o slides segments timings i, hs]
    have ht : timings[i]? = none := List.getElem?_eq_none hlen
    simp [processSlide, ht]
  · intro j t slide ht hs
    rw [run_getElem? cfg o slides segments timings j, hs]
    simp [processSlide, ht]

/-- A first concrete slide/timing pair for the missing-timing scenario. -/
def slideA : Slide := { page_index := 0, keywords_expanded := [] }

/-- A second slide, which will lack a timing entry. -/
def slideB : Slide := { page_index := 1, keywords_expanded := [] }

/-- The single timing entry of the missing-timing scenario. -/
def timA : TimingEntry := { page_index := 0, start_time := 0, end_time := 5 }

theorem claim_C7_missing_timing_witness :
    (run_comprehensive_analysis defaultConfig (trivOracle 0) [slideA, slideB] [] [timA])[1]?
      = some (noTimingResult slideB) :=
  (claim_C7_missing_timing defaultConfig (trivOracle 0) [slideA, slideB] [] [timA]).2.1
    1 slideB (by norm_num) rfl

/-- C8 counterexample: on the spec's end-to-end scenario the engine does
not produce the claimed numbers. The stated spoken text has 9 words, so
`wpm = 9/8*60 = 67.5`, not 75, and the overall score is 60.5, not ≈65.9;
moreover the concept is matched by the lexical tier (tier 1), so the
substring tier is never consulted. -/
theorem claim_C8_counterexample :
    ((photoRun[0]?.bind (fun r => blockVal r.metrics)).map Metrics.wpm = some (67.5 : ℚ)
      ∧ (67.5 : ℚ) ≠ 75)
    ∧ ((photoRun[0]?.bind SlideResult.overall_score) = some (60.5 : ℚ)
      ∧ (60.5 : ℚ) ≠ 65.9)
    ∧ level1Match (trivOracle 14) (cleanAndLemmatize (trivOracle 14) photoSeg.text)
        ["photosynthesis", "making energy from light"] = true := by
  refine ⟨⟨by with_unfolding_all decide, by norm_num⟩,
    ⟨by with_unfolding_all decide, by norm_num⟩, by decide⟩

/-- C8 (amended): on the end-to-end scenario — keywords
`{"photosynthesis": ["photosynthesis", "making energy from light"]}`,
spoken text "Today we explain how plants make energy from light" (9
words) as one matched segment spanning [1,9), window [0,10), no fillers
or mumbles, pitch variability 14.0 — the result is
`covered = ["photosynthesis"]` via the lexical tier (the synonym tokens
"energy"/"from"/"light" already appear verbatim in the spoken text),
`content_score = 100.0`, `wpm = 9/8*60 = 67.5`, fluency sub-score
`max(0, 100 - 1.5*62.5) = 6.25` before weighting, tone sub-score
`14/15*100 = 93.3̄`, and
`overall_score = round(100*0.3 + 6.25*0.4 + (280/3)*0.3, 1) = 60.5`. -/
theorem claim_C8_end_to_end :
    (photoRun[0]?.bind SlideResult.overall_score) = some (60.5 : ℚ)
    ∧ (photoRun[0]?.bind (fun r => blockVal r.content_analysis)).map
        ContentAnalysis.score = some 100
    ∧ (photoRun[0]?.bind (fun r => blockVal r.content_analysis)).map
        ContentAnalysis.covered_keywords = some ["photosynthesis"]
    ∧ (photoRun[0]?.bind (fun r => blockVal r.metrics)).map Metrics.wpm
        = some (67.5 : ℚ)
    ∧ level1Match (trivOracle 14) (cleanAndLemmatize (trivOracle 14) photoSeg.text)
        ["photosynthesis", "making energy from light"] = true
    ∧ fluencySub defaultConfig (135/2) 0 0 10 = 6.25
    ∧ toneSub 14 = 280/3 := by
  refine ⟨by with_unfolding_all decide, by with_unfolding_all decide,
    by with_unfolding_all decide, by with_unfolding_all decide, by decide,
    by with_unfolding_all decide, by with_unfolding_all decide⟩

/-- C9: the pitch analyzer is total and non-negative. It returns 0.0
immediately when `end ≤ start`, 0.0 on any internal librosa exception
(modelled by `PyinResult.err`; the Python code catches, logs and returns),
0.0 when pyin yields no pitch array, and 0.0 when fewer than two valid
(non-NaN) pitch estimates exist; otherwise a rounded standard deviation,
which is also non-negative. -/
theorem claim_C9_pitch_total (pyin : ℚ → ℚ → PyinResult) (start_t end_t : ℚ) :
    0 ≤ calculate_pitch_variability pyin start_t end_t
    ∧ (end_t ≤ start_t → calculate_pitch_variability pyin start_t end_t = 0)
    ∧ (pyin start_t end_t = PyinResult.err →
        calculate_pitch_variability pyin start_t end_t = 0)
    ∧ (pyin start_t end_t = PyinResult.noneArr →
        calculate_pitch_variability pyin start_t end_t = 0)
    ∧ (∀ ps, pyin start_t end_t = PyinResult.arr ps → (ps.filterMap id).length < 2 →
        calculate_pitch_variability pyin start_t end_t = 0) := by
  unfold calculate_pitch_variability
  refine ⟨?_, ?_, ?_, ?_, ?_⟩
  · split_ifs with h
    · norm_num
    · rcases hp : pyin start_t end_t with _ | _ | ps
      · norm_num
      · norm_num
      · simp only []
        split_ifs with hl
        · have h1 : (0 : ℝ) ≤ npStd (ps.filterMap id) * 100 := by
            have := Real.sqrt_nonneg
              ((((ps.filterMap id).map
                  (fun x => (x - (ps.filterMap id).sum / ((ps.filterMap id).length : ℚ)) ^ 2)).sum
                / ((ps.filterMap id).length : ℚ) : ℚ) : ℝ)
            unfold npStd
            nlinarith
          have h2 : (0 : ℤ) ≤ roundHE (npStd (ps.filterMap id) * 100) := roundHE_nonneg h1
          have h3 : (0 : ℝ) ≤ ((roundHE (npStd (ps.filterMap id) * 100) : ℤ) : ℝ) := by
            exact_mod_cast h2
          positivity
        · norm_num
  · intro h
    rw [if_pos h]
  · intro h
    split_ifs with h0
    · rfl
    · rw [h]
  · intro h
    split_ifs with h0
    · rfl
    · rw [h]
  · intro ps h hlen
    split_ifs with h0
    · rfl
    · rw [h]
      simp only []
      rw [if_neg]
      omega

theorem claim_C9_pitch_total_witness :
    calculate_pitch_variability (fun _ _ => PyinResult.err) 0 1 = 0 :=
  (claim_C9_pitch_total (fun _ _ => PyinResult.err) 0 1).2.2.1 rfl

/-- Slide with a given page index and no keywords, for the shifted-timing
scenario. -/
def pgSlide (n : ℤ) : Slide := { page_index := n, keywords_expanded := [] }

/-- A timing list whose middle entry (page 1) is missing: entries exist
for pages 0 and 2 only. -/
def shiftTimings : List TimingEntry :=
  [ { page_index := 0, start_time := 0, end_time := 5 },
    { page_index := 2, start_time := 5, end_time := 9 } ]

/-- The engine's output on three slides with the middle timing entry
missing from the list. -/
def shiftRun : List SlideResult :=
  run_comprehensive_analysis defaultConfig (trivOracle 0)
    [pgSlide 0, pgSlide 1, pgSlide 2] [] shiftTimings

/-- C10: timing entries pair with slides by list position, not by
`page_index`: slide `i` takes its window from `timings[i]` whenever
`i < len(timings)` — the window formula mentions only the entry's times,
never either record's `page_index` — and exactly the slides with
`i ≥ len(timings)` get the "No timing data" marker. Concretely, with the
page-1 entry missing from the middle of the timing list, slide 1 silently
takes page 2's window [5, 9] instead of being marked missing-timing, and
the marker lands on slide 2. -/
theorem claim_C10_positional_pairing (cfg : Config) (o : Oracle) (segments : List Segment) :
    (∀ (slides : List Slide) (timings : List TimingEntry) (i : ℕ)
        (slide : Slide) (t : TimingEntry),
        timings[i]? = some t → slides[i]? = some slide →
        (run_comprehensive_analysis cfg o slides segments timings)[i]?
          = some (analyzeTimedSlide cfg o segments slide t.start_time
              (clampEnd t.start_time t.end_time)))
    ∧ (∀ (slides : List Slide) (timings : List TimingEntry) (i : ℕ) (slide : Slide),
        slides[i]? = some slide →
        ((run_comprehensive_analysis cfg o slides segments timings)[i]?
            = some (noTimingResult slide) ↔ timings.length ≤ i))
    ∧ (shiftRun[1]?.map SlideResult.start_time = some (some 5)
        ∧ shiftRun[1]?.map SlideResult.end_time = some (some 9)
        ∧ (shiftRun[1]?.bind (fun r => blockVal r.content_analysis)).isSome = true
        ∧ shiftRun[2]? = some (noTimingResult (pgSlide 2))) := by
  refine ⟨?_, ?_, by with_unfolding_all decide, by with_unfolding_all decide,
    by with_unfolding_all decide, by with_unfolding_all decide⟩
  · intro slides timings i slide t ht hs
    rw [run_getElem? cfg o slides segments timings i, hs]
    simp [processSlide, ht]
  · intro slides timings i slide hs
    rw [run_getElem? cfg o slides segments timings i, hs]
    constructor
    · intro h
      by_contra hlt
      push_neg at hlt
      have ht : ∃ t, timings[i]? = some t := by
        have := List.getElem?_eq_getElem hlt
        exact ⟨_, this⟩
      obtain ⟨t, ht⟩ := ht
      simp only [processSlide, ht, Option.map_some', Option.some.injEq] at h
      obtain ⟨c, hc⟩ := analyzeTimedSlide_content_ok cfg o segments slide t.start_time
        (clampEnd t.start_time t.end_time)
      rw [h] at hc
      simp [noTimingResult] at hc
    · intro hlen
      have ht : timings[i]? = none := List.getElem?_eq_none hlen
      simp [processSlide, ht]

theorem claim_C10_positional_pairing_witness :
    shiftRun[1]? = some (analyzeTimedSlide defaultConfig (trivOracle 0) [] (pgSlide 1)
      (5 : ℚ) (clampEnd 5 9)) :=
  (claim_C10_positional_pairing defaultConfig (trivOracle 0) []).1
    [pgSlide 0, pgSlide 1, pgSlide 2] shiftTimings 1 (pgSlide 1)
    { page_index := 2, start_time := 5, end_time := 9 } rfl rfl
